import Mathlib

/-!
Shallow embedding of the pg-compute-node deployment/invocation engine.

Sources embedded here:
* `PgCompute` — `src/compute/pg_compute.js` (class `PgCompute`: `run`,
  `#checkFunctionWithArgsExists`, `#prepareExecStmt`, `#prepareExecStmtWithArgs`,
  `#parseFunctionArguments`, `#getPostgresType`,
  `#JS_TO_POSTGRES_TYPE_MAPPING`, `#MIN_INT`, `#MAX_INT`).
* `Deployment` — the current `Deployment` class of the repository (the variant
  carrying the Apache license header, found in `src/unnamed/part_000`:
  `checkExists`, `#createFunction`, `#DEPLOYMENT_TABLE_NAME`). The repository
  also packages an older variant of the same class at
  `src/compute/deployment.js`; the test suite (`src/test/pg_compute.test.js`),
  the README and `src/examples/manual_deployment_sample.js` exercise and
  document only the behaviour of the current variant (MANUAL-mode
  short-circuit, schema-qualified DDL, fingerprint-only redeploy condition),
  so that variant is the one embedded as the program.

Effects (database round trips and in-memory ledger mutations) are embedded as
an explicit, ordered list of `Action`s mirroring the statement order of the
JavaScript source; `execActions` replays such a list against a failure model
of the database client. The md5 digest from node's `crypto` module is an
external collaborator and is passed in as an opaque `md5 : String → String`.
-/

namespace PgComputeNode

/-! ## JavaScript string primitives used by the source -/

/-- JS `String.prototype.indexOf` for a single-character needle:
index of the first occurrence, `-1` when absent. -/
def jsIndexOf (s : String) (c : Char) : Int :=
  match s.data.findIdx? (fun d => d = c) with
  | some i => (i : Int)
  | none => -1

/-- JS `String.prototype.lastIndexOf` for a single-character needle. -/
def jsLastIndexOf (s : String) (c : Char) : Int :=
  match s.data.reverse.findIdx? (fun d => d = c) with
  | some i => (s.data.length : Int) - 1 - (i : Int)
  | none => -1

/-- JS `String.prototype.substring`: both arguments are clamped into
`[0, length]` and swapped when `start > finish`. -/
def jsSubstring (s : String) (start finish : Int) : String :=
  let n : Int := (s.data.length : Int)
  let a : Int := min (max start 0) n
  let b : Int := min (max finish 0) n
  let lo : Nat := (min a b).toNat
  let hi : Nat := (max a b).toNat
  String.mk ((s.data.drop lo).take (hi - lo))

/-- JS `String.prototype.slice(0, s.length - k)` as used by the source
(`argsStr.slice(0, argsStr.length - 1)` and `...length - 2`): keeps the first
`length - k` characters, clamped at zero — which is exactly what JS computes
for these call shapes, also when the string is shorter than `k`. -/
def jsTake (s : String) (k : Nat) : String :=
  String.mk (s.data.take k)

/-- Splitting helper for JS `String.prototype.split(",")`: cut at every
occurrence of the separator character; an empty input yields `[""]` as in JS. -/
def splitOnCharList (c : Char) : List Char → List Char → List String
  | [], acc => [String.mk acc.reverse]
  | d :: rest, acc =>
    if d = c then String.mk acc.reverse :: splitOnCharList c rest []
    else splitOnCharList c rest (d :: acc)

/-- JS `String.prototype.split(",")`. -/
def jsSplitComma (s : String) : List String :=
  splitOnCharList ',' s.data []

/-- The whitespace test of JS `String.prototype.trim`. -/
def isJsSpace (c : Char) : Bool :=
  c = ' ' || c = '\t' || c = '\n' || c = '\r' || c = '\x0b' || c = '\x0c'

/-- JS `String.prototype.trim`: strip whitespace from both ends. -/
def jsTrim (s : String) : String :=
  String.mk (((s.data.dropWhile isJsSpace).reverse.dropWhile isJsSpace).reverse)

/-- JS `String.prototype.toLowerCase` (ASCII range, as used for column
names). -/
def jsToLower (s : String) : String :=
  String.mk (s.data.map Char.toLower)

/-! ## JavaScript runtime values

The universe of runtime values that `PgCompute.#getPostgresType` can observe,
together with the two observations the source makes on them: `typeof` and
`Object.prototype.toString.call`. Numbers are modelled as rationals
(`Number.isInteger` becomes "denominator 1"); a `Date`, a wrapped `Boolean`
or `String`, a plain object, `null`, a function, `undefined` and a `bigint`
are separate constructors because `typeof`/`toString` separate them. -/

inductive JsValue where
  | jsNum (q : ℚ)
  | jsBool (b : Bool)
  | jsString (s : String)
  | jsBigInt (n : Int)
  | jsDate (dateText : String)
  | jsBoolObj (b : Bool)
  | jsStrObj (s : String)
  | jsPlainObject
  | jsNull
  | jsFunction
  | jsUndefined
  deriving DecidableEq

/-- The JS `typeof` operator on the modelled values (`typeof null` is
`"object"`). -/
def jsTypeof : JsValue → String
  | .jsNum _ => "number"
  | .jsBool _ => "boolean"
  | .jsString _ => "string"
  | .jsBigInt _ => "bigint"
  | .jsDate _ => "object"
  | .jsBoolObj _ => "object"
  | .jsStrObj _ => "object"
  | .jsPlainObject => "object"
  | .jsNull => "object"
  | .jsFunction => "function"
  | .jsUndefined => "undefined"

/-- `Object.prototype.toString.call` on the modelled values. -/
def jsToStringTag : JsValue → String
  | .jsNum _ => "[object Number]"
  | .jsBool _ => "[object Boolean]"
  | .jsString _ => "[object String]"
  | .jsBigInt _ => "[object BigInt]"
  | .jsDate _ => "[object Date]"
  | .jsBoolObj _ => "[object Boolean]"
  | .jsStrObj _ => "[object String]"
  | .jsPlainObject => "[object Object]"
  | .jsNull => "[object Null]"
  | .jsFunction => "[object Function]"
  | .jsUndefined => "[object Undefined]"

/-- JS string coercion of a value, as performed by `+` on strings when the
source embeds an argument into generated statement text. Printing of a
non-integral number is abstracted (JS prints a decimal expansion; the model
prints the rational); every claim below is insensitive to that rendering. -/
def jsToString : JsValue → String
  | .jsNum q => if q.den = 1 then toString q.num else toString q
  | .jsBool b => if b then "true" else "false"
  | .jsString s => s
  | .jsBigInt n => toString n
  | .jsDate dateText => dateText
  | .jsBoolObj b => if b then "true" else "false"
  | .jsStrObj s => s
  | .jsPlainObject => "[object Object]"
  | .jsNull => "null"
  | .jsFunction => "function"
  | .jsUndefined => "undefined"

namespace PgCompute

/-- `PgCompute.#JS_TO_POSTGRES_TYPE_MAPPING` — the static map of
`src/compute/pg_compute.js` lines 37-47; absent keys yield `undefined`,
modelled as `none`. -/
def JS_TO_POSTGRES_TYPE_MAPPING : String → Option String
  | "int" => some "int4"
  | "long" => some "int8"
  | "bigint" => some "bigint"
  | "float" => some "float4"
  | "boolean" => some "bool"
  | "string" => some "text"
  | "[object Boolean]" => some "bool"
  | "[object Date]" => some "date"
  | "[object String]" => some "text"
  | _ => none

/-- `PgCompute.#MIN_INT = Math.pow(-2, 31)`, which the source itself
annotates as `-2147483648`. -/
def MIN_INT : ℚ := -2147483648

/-- `PgCompute.#MAX_INT = Math.pow(2, 31) - 1`, annotated `2147483647` in the
source. -/
def MAX_INT : ℚ := 2147483647

/-- `PgCompute.#getPostgresType` (`src/compute/pg_compute.js` lines 220-241):
classify a runtime value into a backing-store type name, or fail with
`"Unsupported argument type: <observed kind>"`. The source reassigns `type`
to the `toString` tag in the `"object"` branch before both the lookup and the
error message; the model computes that reassigned value as `type`. -/
def getPostgresType (arg : JsValue) : Except String String :=
  let type : String :=
    if jsTypeof arg = "object" then jsToStringTag arg else jsTypeof arg
  let pgType : Option String :=
    match arg with
    | .jsNum q =>
      if q.den = 1 then
        JS_TO_POSTGRES_TYPE_MAPPING
          (if q < MIN_INT ∨ q > MAX_INT then "long" else "int")
      else
        JS_TO_POSTGRES_TYPE_MAPPING "float"
    | _ => JS_TO_POSTGRES_TYPE_MAPPING type
  match pgType with
  | some t => Except.ok t
  | none => Except.error ("Unsupported argument type: " ++ type)

end PgCompute

/-! ## The deployment ledger and the effect trace -/

/-- One in-memory ledger entry: `{"args": ..., "bodyHashCode": ...}` plus the
per-session `checked` flag. Records loaded from the metadata table or freshly
written by `#createFunction` carry no `checked` property (falsy), modelled as
`checked := false`; `checkExists` later sets it. -/
structure FuncRecord where
  args : String
  bodyHashCode : String
  checked : Bool
  deriving DecidableEq

/-- The in-memory deployment table `#deploymentTable`, an object keyed by
function name. -/
abbrev Ledger := List (String × FuncRecord)

/-- Property read `table[funcName]`: `undefined` becomes `none`. -/
def lookupRecord (table : Ledger) (funcName : String) : Option FuncRecord :=
  (table.find? (fun p => p.1 = funcName)).map (fun p => p.2)

/-- One round trip through the external client: `query(rawText)` or
`query({name, text, values})` (a named prepared statement). -/
inductive Query where
  | raw (text : String)
  | prepared (name : String) (text : String) (values : List String)
  deriving DecidableEq

/-- One effect of `checkExists`/`run`, in source order: a database round trip,
the write `#deploymentTable[name] = record`, or the write
`#deploymentTable[name].checked = true`. -/
inductive Action where
  | query (q : Query)
  | setRecord (name : String) (record : FuncRecord)
  | setChecked (name : String)
  deriving DecidableEq

/-- Whether an action is a database round trip. -/
def isQueryAction : Action → Bool
  | .query _ => true
  | _ => false

/-- Whether an action is the in-memory record replacement. -/
def isSetRecordAction : Action → Bool
  | .setRecord _ _ => true
  | _ => false

/-- `#deploymentTable[name] = record` (JS object assignment: replaces the
entry when the key is present, adds it otherwise). -/
def applySetRecord (table : Ledger) (funcName : String) (record : FuncRecord) : Ledger :=
  if (table.find? (fun p => p.1 = funcName)).isSome then
    table.map (fun p => if p.1 = funcName then (p.1, record) else p)
  else
    table ++ [(funcName, record)]

/-- `#deploymentTable[name].checked = true` (every reachable call site has the
entry present). -/
def applySetChecked (table : Ledger) (funcName : String) : Ledger :=
  table.map (fun p => if p.1 = funcName then (p.1, { p.2 with checked := true }) else p)

/-- Replay an action list against the database client. `ok k` says whether the
`k`-th database round trip succeeds; the first failing query aborts the replay
(the JS `await` throws and the error propagates), leaving the trace of
attempted queries, the ledger reached so far, and `false`. In-memory writes
cannot fail. -/
def execActions : List Action → (Nat → Bool) → Nat → Ledger → List Query × Ledger × Bool
  | [], _, _, table => ([], table, true)
  | .query q :: rest, ok, k, table =>
    if ok k then
      let out := execActions rest ok (k + 1) table
      (q :: out.1, out.2)
    else
      ([q], table, false)
  | .setRecord n r :: rest, ok, k, table => execActions rest ok k (applySetRecord table n r)
  | .setChecked n :: rest, ok, k, table => execActions rest ok k (applySetChecked table n)

/-! ## The Deployment component (current variant, see header) -/

namespace DeploymentMode

/-- `DeploymentMode.AUTO` — deployment modes are plain strings in the source. -/
def AUTO : String := "AUTO"

/-- `DeploymentMode.MANUAL`. -/
def MANUAL : String := "MANUAL"

end DeploymentMode

namespace Deployment

/-- `#deploymentTableFullName = schema + "." + DEPLOYMENT_TABLE_NAME`. -/
def deploymentTableFullName (schema : String) : String :=
  schema ++ "." ++ "pg_compute"

/-- The statement-building `if`/`else` at the top of `#createFunction`: the
`funcArgs == undefined` branch omits the parameter list; the other branch
interpolates `funcArgs` between parentheses. `checkExists` normalizes
`undefined`/`null` to `""` before calling, so only the `some` branch is
reachable through it. The generated routine name is qualified by the
configured schema. -/
def createFunctionStmt (schema funcName : String) (funcArgs : Option String)
    (funcBody : String) : String :=
  match funcArgs with
  | none =>
    "create or replace function " ++ schema ++ "." ++ funcName ++
      "() returns JSON as $$" ++ funcBody ++ "$$ language plv8;"
  | some args =>
    "create or replace function " ++ schema ++ "." ++ funcName ++
      "(" ++ args ++ ") returns JSON as $$" ++ funcBody ++ "$$ language plv8;"

/-- `Deployment.#createFunction`, as the ordered effect list of its body:
`BEGIN;`, the create-or-replace DDL, on redeploy the metadata `DELETE` keyed
by the OLD stored `args` (read from the in-memory table), the metadata
`INSERT` of the new row, `COMMIT;`, and only then the in-memory record
replacement. The md5 digest of the body is recomputed here as in the source. -/
def createFunctionActions (md5 : String → String) (schema : String) (table : Ledger)
    (funcName funcArgs funcBody : String) (redeploy : Bool) : List Action :=
  let tbl := deploymentTableFullName schema
  let stmt := createFunctionStmt schema funcName (some funcArgs) funcBody
  let bodyHashCode := md5 funcBody
  let oldArgs := ((lookupRecord table funcName).map FuncRecord.args).getD ""
  [Action.query (Query.raw "BEGIN;"), Action.query (Query.raw stmt)] ++
    (if redeploy then
      [Action.query (Query.prepared ("pg_compute_delete_" ++ tbl)
        ("DELETE FROM " ++ tbl ++ " WHERE name = $1 and args = $2;")
        [funcName, oldArgs])]
    else []) ++
    [Action.query (Query.prepared ("pg_compute_insert_" ++ tbl)
      ("INSERT INTO " ++ tbl ++ " VALUES($1,$2,$3);")
      [funcName, funcArgs, bodyHashCode]),
    Action.query (Query.raw "COMMIT;"),
    Action.setRecord funcName
      { args := funcArgs, bodyHashCode := bodyHashCode, checked := false }]

/-- The `funcArgs == undefined || funcArgs == null` normalization at the top
of `checkExists` (callers pass `null` for a zero-parameter function). -/
def normalizeFuncArgs : Option String → String
  | none => ""
  | some s => s

/-- `Deployment.checkExists`, as the ordered effect list of one call.
Mirrors the source line by line: the MANUAL-mode short-circuit, the record
lookup, the argument normalization, the session short-circuit on
`funcRecord.checked`, the md5 fingerprint, then deploy (record absent),
redeploy (the condition
`(args-differ && hash-differs) || hash-differs` of the source), or no-op,
and finally `#deploymentTable[funcName].checked = true`. -/
def checkExists (md5 : String → String) (deploymentMode schema : String)
    (table : Ledger) (funcName : String) (funcArgs0 : Option String)
    (funcBody : String) : List Action :=
  if deploymentMode = DeploymentMode.MANUAL then []
  else
    let funcRecord := lookupRecord table funcName
    let funcArgs := normalizeFuncArgs funcArgs0
    match funcRecord with
    | some r =>
      if r.checked then []
      else
        let bodyHashCode := md5 funcBody
        if ((r.args != funcArgs) && (r.bodyHashCode != bodyHashCode)) ||
            (r.bodyHashCode != bodyHashCode) then
          createFunctionActions md5 schema table funcName funcArgs funcBody true ++
            [Action.setChecked funcName]
        else
          [Action.setChecked funcName]
    | none =>
      createFunctionActions md5 schema table funcName funcArgs funcBody false ++
        [Action.setChecked funcName]

end Deployment

/-! ## The Invoker (`PgCompute.run` and its helpers) -/

/-- A function value as `run` observes it: `plv8Func.toString()` (the source
text), the runtime properties `plv8Func.name` and `plv8Func.length`
(declared-parameter count). -/
structure JsFunc where
  src : String
  name : String
  length : Nat
  deriving DecidableEq

namespace PgCompute

/-- The `funcBody` extraction in `run`:
`funcStr.substring(funcStr.indexOf("\x7b") + 1, funcStr.lastIndexOf("\x7d"))`. -/
def extractFuncBody (funcStr : String) : String :=
  jsSubstring funcStr (jsIndexOf funcStr '\x7b' + 1) (jsLastIndexOf funcStr '\x7d')

/-- `PgCompute.#parseFunctionArguments`: the text between the first `(` and
the first `)`, split on `","`, each piece trimmed. -/
def parseFunctionArguments (funcStr : String) : List String :=
  let inner := jsSubstring funcStr (jsIndexOf funcStr '(' + 1) (jsIndexOf funcStr ')')
  (jsSplitComma inner).map jsTrim

/-- The accumulation loop of `#checkFunctionWithArgsExists`:
`argsStr += argNames[i] + " " + pgType + ", "`, aborting when
`#getPostgresType` throws. Indexing `argsNames[i]` past the end yields JS
`undefined`, which string-concatenates as `"undefined"`. -/
def checkArgsStrLoop (argsNames : List String) : List JsValue → Nat → String →
    Except String String
  | [], _, acc => Except.ok acc
  | v :: rest, i, acc =>
    match getPostgresType v with
    | Except.error e => Except.error e
    | Except.ok pgType =>
      checkArgsStrLoop argsNames rest (i + 1)
        (acc ++ argsNames.getD i "undefined" ++ " " ++ pgType ++ ", ")

/-- The argument-signature construction of `#checkFunctionWithArgsExists`:
the loop above, then `argsStr.slice(0, argsStr.length - 2).trim()`. -/
def checkFunctionArgsStr (argsNames : List String) (argsValues : List JsValue) :
    Except String String :=
  match checkArgsStrLoop argsNames argsValues 0 "" with
  | Except.error e => Except.error e
  | Except.ok s => Except.ok (jsTrim (jsTake s (s.length - 2)))

/-- `PgCompute.#prepareExecStmt` — the zero-argument invocation statement. -/
def prepareExecStmt (schema funcName : String) : String :=
  "select " ++ schema ++ "." ++ funcName ++ "();"

/-- The `forEach` loop of `#prepareExecStmtWithArgs`: a `text`-typed argument
is embedded single-quoted, every other supported type is embedded via JS
string coercion, each followed by `","`. -/
def execArgsStrLoop : List JsValue → String → Except String String
  | [], acc => Except.ok acc
  | v :: rest, acc =>
    match getPostgresType v with
    | Except.error e => Except.error e
    | Except.ok pgType =>
      if pgType = "text" then
        execArgsStrLoop rest (acc ++ "'" ++ jsToString v ++ "',")
      else
        execArgsStrLoop rest (acc ++ jsToString v ++ ",")

/-- `PgCompute.#prepareExecStmtWithArgs`: the loop above, then
`argsStr.slice(0, argsStr.length - 1)`, interpolated into
`select <schema>.<name>(<argsStr>);`. -/
def prepareExecStmtWithArgs (schema funcName : String) (argsValues : List JsValue) :
    Except String String :=
  match execArgsStrLoop argsValues "" with
  | Except.error e => Except.error e
  | Except.ok argsStr =>
    Except.ok ("select " ++ schema ++ "." ++ funcName ++ "(" ++
      jsTake argsStr (argsStr.length - 1) ++ ");")

/-- Outcome of one `run` call, up to the database's reply: the effects
performed before an engine-side error (`err`), or the full ordered effect
list together with the issued invocation statement (`ok`). -/
inductive RunResult where
  | err (actions : List Action) (msg : String)
  | ok (actions : List Action) (execStmt : String)
  deriving DecidableEq

/-- `PgCompute.run` (`src/compute/pg_compute.js` lines 115-151), as the
ordered effects of one call. The arity guard
`(funcArgsCnt > 0 && args === undefined) || (args !== undefined && args.length != funcArgsCnt)`
reduces to `args.length != funcArgsCnt` because a rest parameter is always an
array; it fires before any deployment check or statement is issued. With
parameters present, `#checkFunctionWithArgsExists` classifies the arguments
(possibly failing) and calls `Deployment.checkExists` with the built
signature; the invocation statement is issued last. -/
def run (md5 : String → String) (deploymentMode schema : String) (table : Ledger)
    (plv8Func : JsFunc) (args : List JsValue) : RunResult :=
  let funcStr := plv8Func.src
  let funcName := plv8Func.name
  let funcArgsCnt := plv8Func.length
  let funcBody := extractFuncBody funcStr
  if args.length ≠ funcArgsCnt then
    PgCompute.RunResult.err []
      ("Function arguments mismatch. Expected " ++ toString funcArgsCnt ++
        ", received " ++ toString args.length)
  else if funcArgsCnt > 0 then
    let argNames := parseFunctionArguments funcStr
    match checkFunctionArgsStr argNames args with
    | Except.error e => PgCompute.RunResult.err [] e
    | Except.ok argsStr =>
      let checkActs :=
        Deployment.checkExists md5 deploymentMode schema table funcName
          (some argsStr) funcBody
      match prepareExecStmtWithArgs schema funcName args with
      | Except.error e => PgCompute.RunResult.err checkActs e
      | Except.ok stmt =>
        RunResult.ok (checkActs ++ [Action.query (Query.raw stmt)]) stmt
  else
    let checkActs :=
      Deployment.checkExists md5 deploymentMode schema table funcName none funcBody
    let stmt := prepareExecStmt schema funcName
    RunResult.ok (checkActs ++ [Action.query (Query.raw stmt)]) stmt

/-- One row of a query result, keyed by column name. -/
abbrev Row := List (String × JsValue)

/-- The result unwrap of `run`: `result.rows[0][funcName.toLowerCase()]`
(`src/compute/pg_compute.js` line 147). An empty row set or an absent column
yields `none` (in JS: a thrown indexing error resp. `undefined`). -/
def runUnwrap (funcName : String) (rows : List Row) : Option JsValue :=
  match rows with
  | [] => none
  | row :: _ => (row.find? (fun p => p.1 = jsToLower funcName)).map (fun p => p.2)

end PgCompute

/-! ## Spec-side rendering (for the refinement statement of the invocation
shape)

These two definitions follow the words of the specification — "string-typed
arguments are rendered single-quoted and all other argument types are
embedded unquoted", "literal args, comma-joined" — and are compared against
the source-translated `prepareExecStmtWithArgs` by theorem. -/

/-- Spec-side literal rendering of one argument. -/
def renderLiteral (v : JsValue) : String :=
  match v with
  | .jsString s => "'" ++ s ++ "'"
  | .jsStrObj s => "'" ++ s ++ "'"
  | _ => jsToString v

/-- Spec-side comma-joined literal argument list. -/
def argsLiteral : List JsValue → String
  | [] => ""
  | [v] => renderLiteral v
  | v :: rest => renderLiteral v ++ "," ++ argsLiteral rest

/-- Rendered arguments each followed by a trailing comma — the intermediate
string the accumulation loop of the source produces. -/
def argsLiteralComma : List JsValue → String
  | [] => ""
  | v :: rest => renderLiteral v ++ "," ++ argsLiteralComma rest

/-! ## Helper lemmas -/

theorem string_data_append (a b : String) : (a ++ b).data = a.data ++ b.data := rfl

theorem string_eq_of_data (a b : String) (h : a.data = b.data) : a = b := by
  cases a with
  | mk d1 =>
    cases b with
    | mk d2 => exact congrArg String.mk h

theorem string_append_assoc (a b c : String) : a ++ b ++ c = a ++ (b ++ c) := by
  apply string_eq_of_data
  simp [string_data_append]

theorem string_append_empty (a : String) : a ++ "" = a := by
  apply string_eq_of_data
  simp [string_data_append]

/-- Dropping the final character of `x ++ ","` (the `slice(0, length - 1)` of
`#prepareExecStmtWithArgs`) recovers `x`. -/
theorem jsTake_append_comma (x : String) :
    jsTake (x ++ ",") ((x ++ ",").length - 1) = x := by
  apply string_eq_of_data
  show ((x.data ++ [',']).take ((x.data ++ [',']).length - 1)) = x.data
  simp

/-- The branch condition of the current `checkExists` redeploy test,
`(argsDiffer && hashDiffers) || hashDiffers`, collapses to `hashDiffers`:
the argument comparison is a dead conjunct. -/
theorem and_or_self_bool (a b : Bool) : ((a && b) || b) = b := by
  cases a <;> cases b <;> rfl

namespace Deployment

/-- The effect list of `#createFunction` is a block of database queries ending
in `COMMIT;`, followed by the single in-memory record replacement. -/
theorem createFunctionActions_shape (md5 : String → String) (schema : String)
    (table : Ledger) (funcName funcArgs funcBody : String) (redeploy : Bool) :
    ∃ qs, createFunctionActions md5 schema table funcName funcArgs funcBody redeploy =
        qs ++ [Action.setRecord funcName
          { args := funcArgs, bodyHashCode := md5 funcBody, checked := false }] ∧
      (∀ a ∈ qs, isQueryAction a = true) ∧
      qs.getLast? = some (Action.query (Query.raw "COMMIT;")) := by
  cases redeploy with
  | false =>
    refine ⟨[Action.query (Query.raw "BEGIN;"),
      Action.query (Query.raw (createFunctionStmt schema funcName (some funcArgs) funcBody)),
      Action.query (Query.prepared ("pg_compute_insert_" ++ deploymentTableFullName schema)
        ("INSERT INTO " ++ deploymentTableFullName schema ++ " VALUES($1,$2,$3);")
        [funcName, funcArgs, md5 funcBody]),
      Action.query (Query.raw "COMMIT;")], by simp [createFunctionActions], ?_, rfl⟩
    intro a ha
    fin_cases ha <;> rfl
  | true =>
    refine ⟨[Action.query (Query.raw "BEGIN;"),
      Action.query (Query.raw (createFunctionStmt schema funcName (some funcArgs) funcBody)),
      Action.query (Query.prepared ("pg_compute_delete_" ++ deploymentTableFullName schema)
        ("DELETE FROM " ++ deploymentTableFullName schema ++ " WHERE name = $1 and args = $2;")
        [funcName, ((lookupRecord table funcName).map FuncRecord.args).getD ""]),
      Action.query (Query.prepared ("pg_compute_insert_" ++ deploymentTableFullName schema)
        ("INSERT INTO " ++ deploymentTableFullName schema ++ " VALUES($1,$2,$3);")
        [funcName, funcArgs, md5 funcBody]),
      Action.query (Query.raw "COMMIT;")], by simp [createFunctionActions], ?_, rfl⟩
    intro a ha
    fin_cases ha <;> rfl

/-- Every call to the current `checkExists` yields one of three effect lists:
nothing (MANUAL mode or session-verified record), only the session mark
(record present with matching fingerprint), or a `#createFunction` block
followed by the session mark. -/
theorem checkExists_cases (md5 : String → String) (mode schema : String)
    (table : Ledger) (funcName : String) (funcArgs0 : Option String)
    (funcBody : String) :
    checkExists md5 mode schema table funcName funcArgs0 funcBody = [] ∨
    checkExists md5 mode schema table funcName funcArgs0 funcBody =
      [Action.setChecked funcName] ∨
    ∃ redeploy,
      checkExists md5 mode schema table funcName funcArgs0 funcBody =
        createFunctionActions md5 schema table funcName
          (normalizeFuncArgs funcArgs0) funcBody redeploy ++
          [Action.setChecked funcName] := by
  unfold checkExists
  by_cases hm : mode = DeploymentMode.MANUAL
  · exact Or.inl (by simp [hm])
  · rcases hrec : lookupRecord table funcName with _ | r
    · refine Or.inr (Or.inr ⟨false, ?_⟩)
      simp [hm, hrec]
    · by_cases hc : r.checked = true
      · exact Or.inl (by simp [hm, hrec, hc])
      · have hc' : r.checked = false := by simpa using hc
        cases hcond : ((r.args != normalizeFuncArgs funcArgs0) &&
            (r.bodyHashCode != md5 funcBody)) || (r.bodyHashCode != md5 funcBody) with
        | false =>
          refine Or.inr (Or.inl ?_)
          simp [hm, hrec, hc', hcond]
        | true =>
          refine Or.inr (Or.inr ⟨true, ?_⟩)
          simp [hm, hrec, hc', hcond]

end Deployment

/-- Replaying a list of non-query actions always succeeds. -/
theorem execActions_no_query_ok (ms : List Action)
    (hm : ∀ a ∈ ms, isQueryAction a = false) (ok : Nat → Bool) (k : Nat)
    (table : Ledger) : (execActions ms ok k table).2.2 = true := by
  induction ms generalizing k table with
  | nil => rfl
  | cons a rest ih =>
    cases a with
    | query q => exact absurd (hm _ (List.mem_cons_self _ _)) (by simp [isQueryAction])
    | setRecord n r =>
      exact ih (fun a ha => hm a (List.mem_cons_of_mem _ ha)) k _
    | setChecked n =>
      exact ih (fun a ha => hm a (List.mem_cons_of_mem _ ha)) k _

/-- Replaying a block of queries followed by a block of in-memory writes:
if the replay fails, the failure happened inside the query block, so the
ledger is left untouched. -/
theorem execActions_fail_frame (qs ms : List Action)
    (hq : ∀ a ∈ qs, isQueryAction a = true)
    (hm : ∀ a ∈ ms, isQueryAction a = false) (ok : Nat → Bool) (k : Nat)
    (table : Ledger)
    (hfail : (execActions (qs ++ ms) ok k table).2.2 = false) :
    (execActions (qs ++ ms) ok k table).2.1 = table := by
  induction qs generalizing k with
  | nil =>
    rw [List.nil_append] at hfail
    rw [execActions_no_query_ok ms hm ok k table] at hfail
    exact absurd hfail (by simp)
  | cons a rest ih =>
    cases a with
    | query q =>
      rw [List.cons_append] at hfail ⊢
      unfold execActions at hfail ⊢
      by_cases hok : ok k = true
      · simp only [hok, if_true] at hfail ⊢
        exact ih (fun x hx => hq x (List.mem_cons_of_mem _ hx)) (k + 1) hfail
      · simp only [hok, if_false] at hfail ⊢
        rfl
    | setRecord n r =>
      exact absurd (hq _ (List.mem_cons_self _ _)) (by simp [isQueryAction])
    | setChecked n =>
      exact absurd (hq _ (List.mem_cons_self _ _)) (by simp [isQueryAction])

theorem string_empty_append (a : String) : "" ++ a = a := by
  apply string_eq_of_data
  simp [string_data_append]

/-- `checkExists` under MANUAL mode produces no actions. -/
theorem checkExists_manual (md5 : String → String) (schema : String)
    (table : Ledger) (funcName : String) (funcArgs0 : Option String)
    (funcBody : String) :
    Deployment.checkExists md5 DeploymentMode.MANUAL schema table funcName
      funcArgs0 funcBody = [] := by
  simp [Deployment.checkExists]

/-- Classification of a numeric argument, computed once for reuse. -/
theorem getPostgresType_num (q : ℚ) :
    PgCompute.getPostgresType (JsValue.jsNum q) =
      Except.ok (if q.den ≠ 1 then "float4" else
        if q < PgCompute.MIN_INT ∨ q > PgCompute.MAX_INT then "int8" else "int4") := by
  by_cases hden : q.den = 1
  · by_cases hrange : q < PgCompute.MIN_INT ∨ q > PgCompute.MAX_INT
    · simp [PgCompute.getPostgresType, PgCompute.JS_TO_POSTGRES_TYPE_MAPPING,
        jsTypeof, hden, hrange]
    · simp [PgCompute.getPostgresType, PgCompute.JS_TO_POSTGRES_TYPE_MAPPING,
        jsTypeof, hden, hrange]
  · simp [PgCompute.getPostgresType, PgCompute.JS_TO_POSTGRES_TYPE_MAPPING,
      jsTypeof, hden]

/-- A value classified as `text` is spec-rendered single-quoted around its JS
string coercion — exactly the quoted branch of the source loop. -/
theorem renderLiteral_text (v : JsValue)
    (h : PgCompute.getPostgresType v = Except.ok "text") :
    renderLiteral v = "'" ++ jsToString v ++ "'" := by
  cases v with
  | jsNum q =>
    rw [getPostgresType_num] at h
    by_cases hden : q.den = 1 <;>
      by_cases hrange : q < PgCompute.MIN_INT ∨ q > PgCompute.MAX_INT <;>
      simp [hden, hrange] at h
  | jsString s => rfl
  | jsStrObj s => rfl
  | jsBool b => simp [PgCompute.getPostgresType, jsTypeof,
      PgCompute.JS_TO_POSTGRES_TYPE_MAPPING] at h
  | jsBigInt n => simp [PgCompute.getPostgresType, jsTypeof,
      PgCompute.JS_TO_POSTGRES_TYPE_MAPPING] at h
  | jsDate d => simp [PgCompute.getPostgresType, jsTypeof, jsToStringTag,
      PgCompute.JS_TO_POSTGRES_TYPE_MAPPING] at h
  | jsBoolObj b => simp [PgCompute.getPostgresType, jsTypeof, jsToStringTag,
      PgCompute.JS_TO_POSTGRES_TYPE_MAPPING] at h
  | jsPlainObject => simp [PgCompute.getPostgresType, jsTypeof, jsToStringTag,
      PgCompute.JS_TO_POSTGRES_TYPE_MAPPING] at h
  | jsNull => simp [PgCompute.getPostgresType, jsTypeof, jsToStringTag,
      PgCompute.JS_TO_POSTGRES_TYPE_MAPPING] at h
  | jsFunction => simp [PgCompute.getPostgresType, jsTypeof,
      PgCompute.JS_TO_POSTGRES_TYPE_MAPPING] at h
  | jsUndefined => simp [PgCompute.getPostgresType, jsTypeof,
      PgCompute.JS_TO_POSTGRES_TYPE_MAPPING] at h

/-- A supported value not classified as `text` is spec-rendered as its bare
JS string coercion — the unquoted branch of the source loop. -/
theorem renderLiteral_not_text (v : JsValue) (t : String)
    (h : PgCompute.getPostgresType v = Except.ok t) (ht : t ≠ "text") :
    renderLiteral v = jsToString v := by
  cases v with
  | jsString s =>
    exact absurd (by simpa [PgCompute.getPostgresType, jsTypeof,
      PgCompute.JS_TO_POSTGRES_TYPE_MAPPING] using h.symm) ht
  | jsStrObj s =>
    exact absurd (by simpa [PgCompute.getPostgresType, jsTypeof, jsToStringTag,
      PgCompute.JS_TO_POSTGRES_TYPE_MAPPING] using h.symm) ht
  | jsNum q => rfl
  | jsBool b => rfl
  | jsBigInt n => rfl
  | jsDate d => rfl
  | jsBoolObj b => rfl
  | jsPlainObject => rfl
  | jsNull => rfl
  | jsFunction => rfl
  | jsUndefined => rfl

/-- The accumulation loop of `#prepareExecStmtWithArgs` renders each supported
argument, quoted when `text`-typed, each with a trailing comma. -/
theorem execArgsStrLoop_renders (l : List JsValue)
    (h : ∀ v ∈ l, ∃ t, PgCompute.getPostgresType v = Except.ok t) :
    ∀ acc, PgCompute.execArgsStrLoop l acc = Except.ok (acc ++ argsLiteralComma l) := by
  induction l with
  | nil =>
    intro acc
    simp [PgCompute.execArgsStrLoop, argsLiteralComma, string_append_empty]
  | cons v rest ih =>
    intro acc
    obtain ⟨t, ht⟩ := h v (List.mem_cons_self _ _)
    have hrest : ∀ w ∈ rest, ∃ u, PgCompute.getPostgresType w = Except.ok u :=
      fun w hw => h w (List.mem_cons_of_mem _ hw)
    by_cases htext : t = "text"
    · subst htext
      have hstep : PgCompute.execArgsStrLoop (v :: rest) acc =
          PgCompute.execArgsStrLoop rest (acc ++ "'" ++ jsToString v ++ "',") := by
        simp [PgCompute.execArgsStrLoop, ht]
      rw [hstep, ih hrest]
      have hq := renderLiteral_text v ht
      refine congrArg Except.ok (string_eq_of_data _ _ ?_)
      have hb : ("'," : String).data = ("'" : String).data ++ ("," : String).data := rfl
      rw [argsLiteralComma]
      simp [hq, string_data_append, hb, List.append_assoc]
    · have hstep : PgCompute.execArgsStrLoop (v :: rest) acc =
          PgCompute.execArgsStrLoop rest (acc ++ jsToString v ++ ",") := by
        simp [PgCompute.execArgsStrLoop, ht, htext]
      rw [hstep, ih hrest]
      have hq := renderLiteral_not_text v t ht htext
      refine congrArg Except.ok (string_eq_of_data _ _ ?_)
      rw [argsLiteralComma]
      simp [hq, string_data_append, List.append_assoc]

/-- For a non-empty argument list the loop output is the comma-joined literal
list followed by one trailing comma. -/
theorem argsLiteralComma_eq (l : List JsValue) (hne : l ≠ []) :
    argsLiteralComma l = argsLiteral l ++ "," := by
  induction l with
  | nil => exact absurd rfl hne
  | cons v rest ih =>
    cases rest with
    | nil => simp [argsLiteralComma, argsLiteral, string_append_empty]
    | cons w tail =>
      have h := ih (by simp)
      rw [argsLiteralComma, h,
        show argsLiteral (v :: w :: tail) =
          renderLiteral v ++ "," ++ argsLiteral (w :: tail) from rfl]
      apply string_eq_of_data
      simp [string_data_append, List.append_assoc]

/-- `#prepareExecStmtWithArgs` on supported arguments produces exactly the
claimed statement: `select <schema>.<name>(<literal args, comma-joined>);`. -/
theorem prepareExecStmtWithArgs_shape (schema funcName : String)
    (args : List JsValue) (hne : args ≠ [])
    (h : ∀ v ∈ args, ∃ t, PgCompute.getPostgresType v = Except.ok t) :
    PgCompute.prepareExecStmtWithArgs schema funcName args =
      Except.ok ("select " ++ schema ++ "." ++ funcName ++ "(" ++
        argsLiteral args ++ ");") := by
  unfold PgCompute.prepareExecStmtWithArgs
  rw [execArgsStrLoop_renders args h "", string_empty_append,
    argsLiteralComma_eq args hne]
  dsimp only
  rw [jsTake_append_comma]

/-- The signature-building loop of `#checkFunctionWithArgsExists` succeeds on
supported arguments. -/
theorem checkArgsStrLoop_ok (argsNames : List String) (l : List JsValue)
    (h : ∀ v ∈ l, ∃ t, PgCompute.getPostgresType v = Except.ok t) :
    ∀ i acc, ∃ s, PgCompute.checkArgsStrLoop argsNames l i acc = Except.ok s := by
  induction l with
  | nil => exact fun i acc => ⟨acc, rfl⟩
  | cons v rest ih =>
    intro i acc
    obtain ⟨t, ht⟩ := h v (List.mem_cons_self _ _)
    have hrest := fun w hw => h w (List.mem_cons_of_mem _ hw)
    unfold PgCompute.checkArgsStrLoop
    rw [ht]
    exact ih hrest (i + 1) _

/-- `#checkFunctionWithArgsExists` builds some signature string whenever every
argument is supported. -/
theorem checkFunctionArgsStr_ok (argsNames : List String) (args : List JsValue)
    (h : ∀ v ∈ args, ∃ t, PgCompute.getPostgresType v = Except.ok t) :
    ∃ s, PgCompute.checkFunctionArgsStr argsNames args = Except.ok s := by
  obtain ⟨s, hs⟩ := checkArgsStrLoop_ok argsNames args h 0 ""
  exact ⟨jsTrim (jsTake s (s.length - 2)), by
    unfold PgCompute.checkFunctionArgsStr
    rw [hs]⟩

/-! ## Claim theorems -/

/-- C2: within one engine instance's lifetime, once a function name is marked
session-verified, every later `checkExists` call for that name performs no
effect at all — no fingerprint (the result does not depend on `md5`), no
comparison, no DDL, no mutation — for every deployment mode, argument
signature and body text, including a changed body. -/
theorem session_verified_short_circuit (table : Ledger) (funcName : String)
    (r : FuncRecord) (hrec : lookupRecord table funcName = some r)
    (hchecked : r.checked = true) :
    ∀ (md5 : String → String) (mode schema : String) (funcArgs0 : Option String)
      (funcBody : String),
      Deployment.checkExists md5 mode schema table funcName funcArgs0 funcBody = [] := by
  intro md5 mode schema fa body
  unfold Deployment.checkExists
  by_cases hm : mode = DeploymentMode.MANUAL
  · simp [hm]
  · simp [hm, hrec, hchecked]

/-- Witness for C2: a ledger whose record for `sum` is session-verified; the
second call with a redefined body produces no actions. -/
theorem session_verified_short_circuit_witness :
    lookupRecord [("sum", ⟨"a int4, b int4", "aaaa", true⟩)] "sum" =
      some ⟨"a int4, b int4", "aaaa", true⟩ ∧
    (⟨"a int4, b int4", "aaaa", true⟩ : FuncRecord).checked = true ∧
    Deployment.checkExists (fun s => s) DeploymentMode.AUTO "public"
      [("sum", ⟨"a int4, b int4", "aaaa", true⟩)] "sum" (some "a int4, b int4")
      " return (a + b) * 10; " = [] :=
  ⟨rfl, rfl,
    session_verified_short_circuit [("sum", ⟨"a int4, b int4", "aaaa", true⟩)]
      "sum" ⟨"a int4, b int4", "aaaa", true⟩ (by rfl) (by rfl) (fun s => s)
      DeploymentMode.AUTO "public" (some "a int4, b int4")
      " return (a + b) * 10; "⟩

/-- C4: under MANUAL policy the current `checkExists` performs no comparison
and no mutation and returns immediately without error for every input —
any ledger state (absent, matching or mismatched record), any signature, any
body, and any digest function (so no fingerprint is computed). -/
theorem manual_mode_no_actions :
    ∀ (md5 : String → String) (schema : String) (table : Ledger)
      (funcName : String) (funcArgs0 : Option String) (funcBody : String),
      Deployment.checkExists md5 DeploymentMode.MANUAL schema table funcName
        funcArgs0 funcBody = [] := by
  intro md5 schema table n fa body
  simp [Deployment.checkExists]

/-- C5: a `run` call whose supplied argument count differs from the declared
parameter count fails with the `Function arguments mismatch` error carrying
the expected and received counts, before any action (deployment check or
invocation statement) is issued; the message contains both counts. -/
theorem run_arity_mismatch (md5 : String → String) (mode schema : String)
    (table : Ledger) (plv8Func : JsFunc) (args : List JsValue)
    (hmismatch : args.length ≠ plv8Func.length) :
    PgCompute.run md5 mode schema table plv8Func args =
      PgCompute.RunResult.err [] ("Function arguments mismatch. Expected " ++
        toString plv8Func.length ++ ", received " ++ toString args.length) ∧
    (∃ p s, "Function arguments mismatch. Expected " ++ toString plv8Func.length ++
      ", received " ++ toString args.length = p ++ toString plv8Func.length ++ s) ∧
    (∃ p s, "Function arguments mismatch. Expected " ++ toString plv8Func.length ++
      ", received " ++ toString args.length = p ++ toString args.length ++ s) := by
  refine ⟨?_, ?_, ?_⟩
  · unfold PgCompute.run
    rw [if_pos hmismatch]
  · exact ⟨"Function arguments mismatch. Expected ",
      ", received " ++ toString args.length, string_append_assoc _ _ _⟩
  · exact ⟨"Function arguments mismatch. Expected " ++ toString plv8Func.length ++
      ", received ", "", (string_append_empty _).symm⟩

/-- Witness for C5: two declared parameters, one supplied argument. -/
theorem run_arity_mismatch_witness :
    PgCompute.run (fun s => s) DeploymentMode.AUTO "public" []
      ⟨"function sum(a, b) \x7b return a + b; \x7d", "sum", 2⟩ [JsValue.jsNum 1] =
      PgCompute.RunResult.err [] ("Function arguments mismatch. Expected " ++
        toString (2 : Nat) ++ ", received " ++ toString (1 : Nat)) :=
  (run_arity_mismatch (fun s => s) DeploymentMode.AUTO "public" []
    ⟨"function sum(a, b) \x7b return a + b; \x7d", "sum", 2⟩ [JsValue.jsNum 1]
    (by decide)).1

/-- C6 counterexample: a `bigint` value is a runtime kind other than number,
boolean, string and date, yet `#getPostgresType` does not fail on it — the
static type map carries the key `"bigint"`, so classification succeeds with
the backing type `bigint`. -/
theorem bigint_argument_supported :
    PgCompute.getPostgresType (JsValue.jsBigInt 10) = Except.ok "bigint" := rfl

/-- C6 (amended): the full, pure classification of `#getPostgresType`:
integral numbers inside the signed 32-bit range map to `int4`, integral
numbers outside it to `int8`, non-integral numbers to `float4`, booleans and
wrapped Booleans to `bool`, strings and wrapped Strings to `text`, dates to
`date`, and additionally `bigint` values map to `bigint`; plain objects,
`null`, functions and `undefined` fail with `Unsupported argument type`
naming the observed kind. -/
theorem getPostgresType_classification :
    (∀ q : ℚ, PgCompute.getPostgresType (JsValue.jsNum q) =
      Except.ok (if q.den ≠ 1 then "float4" else
        if q < PgCompute.MIN_INT ∨ q > PgCompute.MAX_INT then "int8" else "int4")) ∧
    (∀ b, PgCompute.getPostgresType (JsValue.jsBool b) = Except.ok "bool") ∧
    (∀ s, PgCompute.getPostgresType (JsValue.jsString s) = Except.ok "text") ∧
    (∀ d, PgCompute.getPostgresType (JsValue.jsDate d) = Except.ok "date") ∧
    (∀ b, PgCompute.getPostgresType (JsValue.jsBoolObj b) = Except.ok "bool") ∧
    (∀ s, PgCompute.getPostgresType (JsValue.jsStrObj s) = Except.ok "text") ∧
    (∀ n, PgCompute.getPostgresType (JsValue.jsBigInt n) = Except.ok "bigint") ∧
    PgCompute.getPostgresType JsValue.jsPlainObject =
      Except.error "Unsupported argument type: [object Object]" ∧
    PgCompute.getPostgresType JsValue.jsNull =
      Except.error "Unsupported argument type: [object Null]" ∧
    PgCompute.getPostgresType JsValue.jsFunction =
      Except.error "Unsupported argument type: function" ∧
    PgCompute.getPostgresType JsValue.jsUndefined =
      Except.error "Unsupported argument type: undefined" := by
  refine ⟨?_, fun b => rfl, fun s => rfl, fun d => rfl, fun b => rfl,
    fun s => rfl, fun n => rfl, rfl, rfl, rfl, rfl⟩
  intro q
  by_cases hden : q.den = 1
  · by_cases hrange : q < PgCompute.MIN_INT ∨ q > PgCompute.MAX_INT
    · simp [PgCompute.getPostgresType, PgCompute.JS_TO_POSTGRES_TYPE_MAPPING,
        jsTypeof, hden, hrange]
    · simp [PgCompute.getPostgresType, PgCompute.JS_TO_POSTGRES_TYPE_MAPPING,
        jsTypeof, hden, hrange]
  · simp [PgCompute.getPostgresType, PgCompute.JS_TO_POSTGRES_TYPE_MAPPING,
      jsTypeof, hden]


/-- C1 counterexample: a stored record whose `args` signature differs from
the given one while the body fingerprint matches — the current `checkExists`
issues no DDL at all (only the session mark), although the claim requires a
redeploy on an argsSignature change alone. The dead conjunct in the source
condition `(argsDiffer && hashDiffers) || hashDiffers` makes the argument
comparison irrelevant. -/
theorem args_change_alone_no_redeploy :
    ("a int4, b bool, c int4" ≠ "a int4, b int4, c int4") ∧
    Deployment.checkExists (fun _ => "HASH") DeploymentMode.AUTO "public"
      [("plv8SumOfThree", ⟨"a int4, b int4, c int4", "HASH", false⟩)]
      "plv8SumOfThree" (some "a int4, b bool, c int4") " return a + b + c; " =
      [Action.setChecked "plv8SumOfThree"] :=
  ⟨by decide, by rfl⟩

/-- C1 (amended): for an existing, not yet session-verified record under AUTO
policy, a redeploy (the `#createFunction` block: create-or-replace DDL plus
metadata delete+insert, per `createFunctionActions` with `redeploy = true`)
is performed if and only if the stored body fingerprint differs from the
fingerprint of the given body; an argsSignature change alone does not
trigger it, and when the fingerprints match no DDL is issued and the stored
`body_hashcode` is untouched (the only action is the session mark). -/
theorem redeploy_iff_fingerprint_differs (md5 : String → String)
    (schema : String) (table : Ledger) (funcName : String) (r : FuncRecord)
    (funcArgs0 : Option String) (funcBody : String)
    (hrec : lookupRecord table funcName = some r)
    (hunchecked : r.checked = false) :
    (r.bodyHashCode ≠ md5 funcBody →
      Deployment.checkExists md5 DeploymentMode.AUTO schema table funcName
          funcArgs0 funcBody =
        Deployment.createFunctionActions md5 schema table funcName
          (Deployment.normalizeFuncArgs funcArgs0) funcBody true ++
          [Action.setChecked funcName]) ∧
    (r.bodyHashCode = md5 funcBody →
      Deployment.checkExists md5 DeploymentMode.AUTO schema table funcName
          funcArgs0 funcBody = [Action.setChecked funcName]) := by
  have hm : ¬(DeploymentMode.AUTO = DeploymentMode.MANUAL) := by decide
  constructor
  · intro hne
    simp [Deployment.checkExists, hm, hrec, hunchecked, and_or_self_bool,
      bne_iff_ne, hne]
  · intro heq
    simp [Deployment.checkExists, hm, hrec, hunchecked, and_or_self_bool,
      bne_iff_ne, heq]

/-- Witness for C1 (amended): both directions at concrete inputs — a changed
fingerprint yields the full redeploy block, a matching one only the mark. -/
theorem redeploy_iff_fingerprint_differs_witness :
    lookupRecord [("f", ⟨"a int4", "OLD", false⟩)] "f" =
      some ⟨"a int4", "OLD", false⟩ ∧
    Deployment.checkExists (fun _ => "NEW") DeploymentMode.AUTO "public"
      [("f", ⟨"a int4", "OLD", false⟩)] "f" (some "a int4") " body " =
      Deployment.createFunctionActions (fun _ => "NEW") "public"
        [("f", ⟨"a int4", "OLD", false⟩)] "f" "a int4" " body " true ++
        [Action.setChecked "f"] :=
  ⟨rfl,
    (redeploy_iff_fingerprint_differs (fun _ => "NEW") "public"
      [("f", ⟨"a int4", "OLD", false⟩)] "f" ⟨"a int4", "OLD", false⟩
      (some "a int4") " body " rfl rfl).1 (by decide)⟩

/-- C3 counterexample: under MANUAL with an empty ledger (no matching
deployment record), `run` does not fail with any deployment error — it
returns successfully from the engine's side, issuing zero DDL and writing no
metadata; the only statement sent is the invocation itself (whose failure,
if the routine is really absent, is the data store's own error). -/
theorem manual_missing_record_no_library_error :
    PgCompute.run (fun _ => "HASH") DeploymentMode.MANUAL "public" []
      ⟨"function sampleManualDeployFunction(a) \x7b\x7d",
        "sampleManualDeployFunction", 1⟩ [JsValue.jsNum 5] =
      PgCompute.RunResult.ok
        [Action.query (Query.raw "select public.sampleManualDeployFunction(5);")]
        "select public.sampleManualDeployFunction(5);" := by rfl

/-- C3 (amended): under MANUAL the engine consults nothing and mutates
nothing: every failing `run` fails before performing any action, and every
successful `run` performs exactly one action — the invocation statement.
Absent or mismatched records never raise a deployment error; a missing
routine surfaces only through the data store's reply to the invocation. -/
theorem manual_mode_run_invoke_only (md5 : String → String) (schema : String)
    (table : Ledger) (plv8Func : JsFunc) (args : List JsValue) :
    (∀ acts msg,
      PgCompute.run md5 DeploymentMode.MANUAL schema table plv8Func args =
        PgCompute.RunResult.err acts msg → acts = []) ∧
    (∀ acts stmt,
      PgCompute.run md5 DeploymentMode.MANUAL schema table plv8Func args =
        PgCompute.RunResult.ok acts stmt →
        acts = [Action.query (Query.raw stmt)]) := by
  unfold PgCompute.run
  by_cases harity : args.length ≠ plv8Func.length
  · rw [if_pos harity]
    constructor
    · intro acts msg h
      injection h with h1 h2
      exact h1.symm
    · intro acts stmt h
      exact absurd h (by simp)
  · rw [if_neg harity]
    by_cases hn : plv8Func.length > 0
    · rw [if_pos hn]
      rcases hsig : PgCompute.checkFunctionArgsStr
          (PgCompute.parseFunctionArguments plv8Func.src) args with e | argsStr
      · simp only [hsig]
        constructor
        · intro acts msg h
          injection h with h1 h2
          exact h1.symm
        · intro acts stmt h
          exact absurd h (by simp)
      · simp only [hsig, checkExists_manual]
        rcases hstmt : PgCompute.prepareExecStmtWithArgs schema plv8Func.name
            args with e | stmt0
        · simp only [hstmt]
          constructor
          · intro acts msg h
            injection h with h1 h2
            exact h1.symm
          · intro acts stmt h
            exact absurd h (by simp)
        · simp only [hstmt]
          constructor
          · intro acts msg h
            exact absurd h (by simp)
          · intro acts stmt h
            injection h with h1 h2
            subst h2
            simp at h1
            exact h1.symm
    · rw [if_neg hn]
      simp only [checkExists_manual]
      constructor
      · intro acts msg h
        exact absurd h (by simp)
      · intro acts stmt h
        injection h with h1 h2
        subst h2
        simp at h1
        exact h1.symm

/-- Witness for C3 (amended): a successful MANUAL `run` whose whole effect
trace is the single invocation statement. -/
theorem manual_mode_run_invoke_only_witness :
    PgCompute.run (fun _ => "H") DeploymentMode.MANUAL "public" []
      ⟨"function g(a) \x7b\x7d", "g", 1⟩ [JsValue.jsNum 7] =
      PgCompute.RunResult.ok [Action.query (Query.raw "select public.g(7);")]
        "select public.g(7);" ∧
    [Action.query (Query.raw "select public.g(7);")] =
      [Action.query (Query.raw "select public.g(7);")] :=
  ⟨by rfl,
    (manual_mode_run_invoke_only (fun _ => "H") "public" []
      ⟨"function g(a) \x7b\x7d", "g", 1⟩ [JsValue.jsNum 7]).2
      [Action.query (Query.raw "select public.g(7);")] "select public.g(7);"
      (by rfl)⟩


/-- C7: the generated remote-routine DDL: the statement built with an
argument signature is exactly
`create or replace function <schema>.<name>(<args>) returns JSON as
$$<body>$$ language plv8;` — the routine name qualified by the configured
schema; the zero-argument signature produces the variant with the parameter
list omitted; and every raw statement `checkExists` ever issues other than
`BEGIN;`/`COMMIT;` is exactly that DDL over the normalized signature. -/
theorem ddl_schema_qualified_shape :
    (∀ schema funcName funcArgs funcBody : String,
      Deployment.createFunctionStmt schema funcName (some funcArgs) funcBody =
        "create or replace function " ++ schema ++ "." ++ funcName ++ "(" ++
          funcArgs ++ ") returns JSON as $$" ++ funcBody ++ "$$ language plv8;") ∧
    (∀ schema funcName funcBody : String,
      Deployment.createFunctionStmt schema funcName (some "") funcBody =
        "create or replace function " ++ schema ++ "." ++ funcName ++
          "() returns JSON as $$" ++ funcBody ++ "$$ language plv8;") ∧
    (∀ (md5 : String → String) (mode schema : String) (table : Ledger)
      (funcName : String) (funcArgs0 : Option String) (funcBody s : String),
      Action.query (Query.raw s) ∈
        Deployment.checkExists md5 mode schema table funcName funcArgs0 funcBody →
      s = "BEGIN;" ∨ s = "COMMIT;" ∨
        s = Deployment.createFunctionStmt schema funcName
          (some (Deployment.normalizeFuncArgs funcArgs0)) funcBody) := by
  refine ⟨fun schema n a b => rfl, ?_, ?_⟩
  · intro schema n b
    show "create or replace function " ++ schema ++ "." ++ n ++ "(" ++ "" ++
        ") returns JSON as $$" ++ b ++ "$$ language plv8;" = _
    apply string_eq_of_data
    have hb : ("() returns JSON as $$" : String).data =
        ("(" : String).data ++ (") returns JSON as $$" : String).data := rfl
    simp [string_data_append, hb, List.append_assoc]
  · intro md5 mode schema table n fa body s hmem
    rcases Deployment.checkExists_cases md5 mode schema table n fa body with
      h | h | ⟨rd, h⟩
    · rw [h] at hmem
      simp at hmem
    · rw [h] at hmem
      simp at hmem
    · rw [h] at hmem
      cases rd <;> simp [Deployment.createFunctionActions] at hmem <;> tauto

/-- Witness for C7: the raw create statement found in a fresh AUTO deploy is
the schema-qualified DDL. -/
theorem ddl_schema_qualified_shape_witness :
    Deployment.createFunctionStmt "public" "f" (some "") " B " = "BEGIN;" ∨
    Deployment.createFunctionStmt "public" "f" (some "") " B " = "COMMIT;" ∨
    Deployment.createFunctionStmt "public" "f" (some "") " B " =
      Deployment.createFunctionStmt "public" "f"
        (some (Deployment.normalizeFuncArgs none)) " B " :=
  ddl_schema_qualified_shape.2.2 (fun _ => "H") DeploymentMode.AUTO "public"
    [] "f" none " B " (Deployment.createFunctionStmt "public" "f" (some "") " B ")
    (by decide)

/-- C8: a successful `run` issues, as its last action, exactly
`select <schema>.<name>(<literal args, comma-joined>);` with `text`-typed
arguments single-quoted and all other types embedded unquoted (zero-parameter
functions get the empty parameter list), and the result unwrap reads the
column named after the function's name in lowercase from the first row. -/
theorem run_invocation_shape :
    (∀ (md5 : String → String) (mode schema : String) (table : Ledger)
      (plv8Func : JsFunc) (args : List JsValue),
      args.length = plv8Func.length → 0 < plv8Func.length →
      (∀ v ∈ args, ∃ t, PgCompute.getPostgresType v = Except.ok t) →
      ∃ argsSig,
        PgCompute.checkFunctionArgsStr
          (PgCompute.parseFunctionArguments plv8Func.src) args =
          Except.ok argsSig ∧
        PgCompute.run md5 mode schema table plv8Func args =
          PgCompute.RunResult.ok
            (Deployment.checkExists md5 mode schema table plv8Func.name
              (some argsSig) (PgCompute.extractFuncBody plv8Func.src) ++
              [Action.query (Query.raw ("select " ++ schema ++ "." ++
                plv8Func.name ++ "(" ++ argsLiteral args ++ ");"))])
            ("select " ++ schema ++ "." ++ plv8Func.name ++ "(" ++
              argsLiteral args ++ ");")) ∧
    (∀ (md5 : String → String) (mode schema : String) (table : Ledger)
      (plv8Func : JsFunc), plv8Func.length = 0 →
      PgCompute.run md5 mode schema table plv8Func [] =
        PgCompute.RunResult.ok
          (Deployment.checkExists md5 mode schema table plv8Func.name none
            (PgCompute.extractFuncBody plv8Func.src) ++
            [Action.query (Query.raw
              (PgCompute.prepareExecStmt schema plv8Func.name))])
          (PgCompute.prepareExecStmt schema plv8Func.name) ∧
      PgCompute.prepareExecStmt schema plv8Func.name =
        "select " ++ schema ++ "." ++ plv8Func.name ++ "();") ∧
    (∀ (funcName : String) (v : JsValue) (rest : PgCompute.Row)
      (restRows : List PgCompute.Row),
      PgCompute.runUnwrap funcName
        (((jsToLower funcName, v) :: rest) :: restRows) = some v) := by
  refine ⟨?_, ?_, ?_⟩
  · intro md5 mode schema table f args h1 h2 h3
    have hne : args ≠ [] := by
      intro hnil
      rw [hnil] at h1
      simp at h1
      omega
    obtain ⟨sig, hsig⟩ := checkFunctionArgsStr_ok
      (PgCompute.parseFunctionArguments f.src) args h3
    refine ⟨sig, hsig, ?_⟩
    unfold PgCompute.run
    rw [if_neg (fun hc => hc h1), if_pos h2]
    simp only [hsig, prepareExecStmtWithArgs_shape schema f.name args hne h3]
  · intro md5 mode schema table f h0
    constructor
    · unfold PgCompute.run
      rw [if_neg (by simp [h0]), if_neg (by simp [h0])]
    · rfl
  · intro funcName v rest restRows
    simp [PgCompute.runUnwrap, List.find?_cons]

/-- Witness for C8: the zero-parameter branch at a concrete function. -/
theorem run_invocation_shape_witness :
    PgCompute.run (fun _ => "H") DeploymentMode.AUTO "public" []
      ⟨"function ver() \x7b return 1; \x7d", "ver", 0⟩ [] =
      PgCompute.RunResult.ok
        (Deployment.checkExists (fun _ => "H") DeploymentMode.AUTO "public" []
          "ver" none
          (PgCompute.extractFuncBody "function ver() \x7b return 1; \x7d") ++
          [Action.query (Query.raw (PgCompute.prepareExecStmt "public" "ver"))])
        (PgCompute.prepareExecStmt "public" "ver") ∧
    PgCompute.prepareExecStmt "public" "ver" =
      "select " ++ "public" ++ "." ++ "ver" ++ "();" :=
  run_invocation_shape.2.1 (fun _ => "H") DeploymentMode.AUTO "public" []
    ⟨"function ver() \x7b return 1; \x7d", "ver", 0⟩ rfl

/-- C9: in every `checkExists` call, the session mark is the last action when
any action is produced at all; every in-memory mutation comes after the whole
query block, the record replacement only after the `COMMIT;`; and if the
replay of the actions fails at any database query, the in-memory ledger —
record and verified flag alike — is exactly the initial one. -/
theorem checkExists_mutations_last :
    ∀ (md5 : String → String) (mode schema : String) (table : Ledger)
      (funcName : String) (funcArgs0 : Option String) (funcBody : String),
      (∀ (ok : Nat → Bool) (k : Nat),
        (execActions (Deployment.checkExists md5 mode schema table funcName
          funcArgs0 funcBody) ok k table).2.2 = false →
        (execActions (Deployment.checkExists md5 mode schema table funcName
          funcArgs0 funcBody) ok k table).2.1 = table) ∧
      (Deployment.checkExists md5 mode schema table funcName funcArgs0
          funcBody = [] ∨
        (Deployment.checkExists md5 mode schema table funcName funcArgs0
          funcBody).getLast? = some (Action.setChecked funcName)) ∧
      (∃ qs ms, Deployment.checkExists md5 mode schema table funcName funcArgs0
          funcBody = qs ++ ms ∧
        (∀ a ∈ qs, isQueryAction a = true) ∧
        (∀ a ∈ ms, isQueryAction a = false) ∧
        (ms.any isSetRecordAction = true →
          qs.getLast? = some (Action.query (Query.raw "COMMIT;")))) := by
  intro md5 mode schema table n fa body
  rcases Deployment.checkExists_cases md5 mode schema table n fa body with
    h | h | ⟨rd, h⟩
  · refine ⟨?_, Or.inl h, [], [], by simp [h], by simp, by simp, by simp⟩
    intro ok k hf
    rw [h] at hf
    simp [execActions] at hf
  · refine ⟨?_, Or.inr (by rw [h]; rfl), [], [Action.setChecked n],
      by simp [h], by simp, ?_, by simp [isSetRecordAction]⟩
    · intro ok k hf
      rw [h] at hf
      simp [execActions] at hf
    · intro a ha
      simp at ha
      rw [ha]
      rfl
  · obtain ⟨qs, hqs, hq, hlast⟩ := Deployment.createFunctionActions_shape md5
      schema table n (Deployment.normalizeFuncArgs fa) body rd
    have hacts : Deployment.checkExists md5 mode schema table n fa body =
        qs ++ [Action.setRecord n
            { args := Deployment.normalizeFuncArgs fa, bodyHashCode := md5 body,
              checked := false },
          Action.setChecked n] := by
      rw [h, hqs, List.append_assoc]
      rfl
    refine ⟨?_, ?_, qs, [Action.setRecord n
        { args := Deployment.normalizeFuncArgs fa, bodyHashCode := md5 body,
          checked := false }, Action.setChecked n], hacts, hq, ?_,
      fun _ => hlast⟩
    · intro ok k hf
      rw [hacts] at hf ⊢
      exact execActions_fail_frame qs _ hq
        (by intro a ha; fin_cases ha <;> rfl) ok k table hf
    · right
      rw [h]
      exact List.getLast?_concat _
    · intro a ha
      fin_cases ha <;> rfl

/-- Witness for C9: a redeploy whose very first query (`BEGIN;`) fails leaves
the ledger untouched. -/
theorem checkExists_mutations_last_witness :
    (execActions (Deployment.checkExists (fun _ => "NEW") DeploymentMode.AUTO
      "public" [("f", ⟨"a int4", "OLD", false⟩)] "f" (some "a int4") " b ")
      (fun _ => false) 0 [("f", ⟨"a int4", "OLD", false⟩)]).2.2 = false ∧
    (execActions (Deployment.checkExists (fun _ => "NEW") DeploymentMode.AUTO
      "public" [("f", ⟨"a int4", "OLD", false⟩)] "f" (some "a int4") " b ")
      (fun _ => false) 0 [("f", ⟨"a int4", "OLD", false⟩)]).2.1 =
      [("f", ⟨"a int4", "OLD", false⟩)] :=
  ⟨by rfl,
    (checkExists_mutations_last (fun _ => "NEW") DeploymentMode.AUTO "public"
      [("f", ⟨"a int4", "OLD", false⟩)] "f" (some "a int4") " b ").1
      (fun _ => false) 0 (by rfl)⟩

/-- C10 counterexample: a function value with no declared name (empty `name`)
is not rejected — under AUTO with an empty ledger, `run` proceeds to attempt
the deployment (the create DDL with the empty name embedded) and the
invocation, raising no engine-side error at all. -/
theorem anonymous_function_deploys :
    PgCompute.run (fun _ => "H") DeploymentMode.AUTO "public" []
      ⟨"function() \x7b return 1; \x7d", "", 0⟩ [] =
      PgCompute.RunResult.ok
        [Action.query (Query.raw "BEGIN;"),
          Action.query (Query.raw
            "create or replace function public.() returns JSON as $$ return 1; $$ language plv8;"),
          Action.query (Query.prepared "pg_compute_insert_public.pg_compute"
            "INSERT INTO public.pg_compute VALUES($1,$2,$3);" ["", "", "H"]),
          Action.query (Query.raw "COMMIT;"),
          Action.setRecord "" ⟨"", "H", false⟩,
          Action.setChecked "",
          Action.query (Query.raw "select public.();")]
        "select public.();" := by rfl

/-- C10 (amended): `run` performs no anonymous-function check: for a function
value with empty `name` (and no parameters) it runs the normal deployment
check and invocation using the empty name, producing the invocation statement
`select <schema>.();`; no `AnonymousFunctionNotSupported` failure exists. -/
theorem anonymous_function_proceeds (md5 : String → String) (schema : String)
    (table : Ledger) (plv8Func : JsFunc) (hname : plv8Func.name = "")
    (hlen : plv8Func.length = 0) :
    PgCompute.run md5 DeploymentMode.AUTO schema table plv8Func [] =
      PgCompute.RunResult.ok
        (Deployment.checkExists md5 DeploymentMode.AUTO schema table "" none
          (PgCompute.extractFuncBody plv8Func.src) ++
          [Action.query (Query.raw (PgCompute.prepareExecStmt schema ""))])
        (PgCompute.prepareExecStmt schema "") ∧
    PgCompute.prepareExecStmt schema "" = "select " ++ schema ++ ".();" := by
  constructor
  · unfold PgCompute.run
    rw [if_neg (by simp [hlen]), if_neg (by simp [hlen]), hname]
  · unfold PgCompute.prepareExecStmt
    apply string_eq_of_data
    have hb : (".();" : String).data =
        ("." : String).data ++ ("();" : String).data := rfl
    simp [string_data_append, hb, List.append_assoc]

/-- Witness for C10 (amended): a concrete anonymous function value. -/
theorem anonymous_function_proceeds_witness :
    PgCompute.run (fun _ => "K") DeploymentMode.AUTO "tracker" []
      ⟨"function() \x7b return 2; \x7d", "", 0⟩ [] =
      PgCompute.RunResult.ok
        (Deployment.checkExists (fun _ => "K") DeploymentMode.AUTO "tracker" []
          "" none
          (PgCompute.extractFuncBody "function() \x7b return 2; \x7d") ++
          [Action.query (Query.raw (PgCompute.prepareExecStmt "tracker" ""))])
        (PgCompute.prepareExecStmt "tracker" "") ∧
    PgCompute.prepareExecStmt "tracker" "" = "select " ++ "tracker" ++ ".();" :=
  anonymous_function_proceeds (fun _ => "K") "tracker" []
    ⟨"function() \x7b return 2; \x7d", "", 0⟩ rfl rfl

end PgComputeNode
